import Mathlib

/-!
Shallow embedding of the yt_summary summarization pipeline core
(src/utils/text_processing.py, src/agents/chunking_agent.py,
src/agents/summarization_agent.py, src/agents/synthesis_agent.py).

Strings are modelled as `List Char`; Python integers as `Int` where they can
go negative (the split cursor), `Nat` elsewhere.  The `while` loop of
`split_into_chunks` is modelled with explicit fuel: `none` means the fuel ran
out with the loop still running, so a result of `some` is the value the Python
loop would return.
-/

namespace YtSummary

/-- Shorthand turning a string literal into the `List Char` representation. -/
def str (s : String) : List Char := s.toList

/-- Python's `\s` class (ASCII): space, tab, newline, carriage return,
vertical tab, form feed. -/
def isPySpace (c : Char) : Bool :=
  c = ' ' || c = '\t' || c = '\n' || c = '\r' || c = '\x0b' || c = '\x0c'

/-- Worker for `re.sub(r'\s+', ' ', text)`: the flag records whether the
previous character was part of a whitespace run already replaced. -/
def collapseGo : Bool → List Char → List Char
  | _, [] => []
  | prevWs, c :: rest =>
    if isPySpace c then
      if prevWs then collapseGo true rest else ' ' :: collapseGo true rest
    else
      c :: collapseGo false rest

/-- `re.sub(r'\s+', ' ', text)`: every maximal run of whitespace becomes a
single space. -/
def collapseWs (l : List Char) : List Char := collapseGo false l

/-- Greedy match of `\s*\n` (with backtracking) against the text after a
leading `\n`: returns the number of characters consumed, i.e. one past the
last `\n` inside the maximal leading whitespace run, when one exists. -/
def sub2Match (rest : List Char) : Option Nat :=
  (((rest.takeWhile isPySpace).enum.filter (fun p => p.2 = '\n')).getLast?).map
    (fun p => p.1 + 1)

/-- Fuelled worker for `re.sub(r'\n\s*\n', '\n', text)`: left-to-right,
non-overlapping replacement of each match by a single newline.  Every step
consumes at least one input character, so fuel equal to the input length is
always enough; on exhausted fuel the rest is returned unchanged. -/
def sub2Go : Nat → List Char → List Char
  | 0, l => l
  | _ + 1, [] => []
  | fuel + 1, c :: rest =>
    if c = '\n' then
      match sub2Match rest with
      | some k => '\n' :: sub2Go fuel (rest.drop k)
      | none => c :: sub2Go fuel rest
    else
      c :: sub2Go fuel rest

/-- `re.sub(r'\n\s*\n', '\n', text)`. -/
def sub2 (l : List Char) : List Char := sub2Go l.length l

/-- Python `str.strip()`: remove leading and trailing whitespace. -/
def pyStrip (l : List Char) : List Char :=
  List.rdropWhile isPySpace (List.dropWhile isPySpace l)

/-- `TextProcessor.clean_text`: collapse whitespace runs to a space, collapse
blank-line patterns, then strip. -/
def clean_text (text : List Char) : List Char :=
  pyStrip (sub2 (collapseWs text))

/-- Adjust a Python index for sequence of length `len` as slicing does:
negative indices count from the end, then clamp into `[0, len]`. -/
def pyAdjIdx (len : Nat) (i : Int) : Nat :=
  if i < 0 then ((len : Int) + i).toNat else min i.toNat len

/-- Python slice `t[a:b]` with full slice-index semantics. -/
def pySlice (t : List Char) (a b : Int) : List Char :=
  (t.take (pyAdjIdx t.length b)).drop (pyAdjIdx t.length a)

/-- Python `t.rfind(sub, a, b)`: highest index `i` with
`a' ≤ i`, `i + |sub| ≤ b'` and `sub` occurring at `i`, else `-1`
(`a'`, `b'` the slice-adjusted bounds). -/
def pyRfind (t sub : List Char) (a b : Int) : Int :=
  let lo := pyAdjIdx t.length a
  let hi := pyAdjIdx t.length b
  match (((List.range (t.length + 1)).filter
      (fun i => lo ≤ i && i + sub.length ≤ hi &&
        decide ((t.drop i).take sub.length = sub))).getLast?) with
  | some i => (i : Int)
  | none => -1

/-- One iteration body plus recursion of the `while start < len(text)` loop of
`TextProcessor.split_into_chunks`, with explicit fuel.  `none` means the fuel
was exhausted with the loop still running. -/
def splitGo (t : List Char) (maxSz ov : Int) :
    Nat → Int → List (List Char) → Option (List (List Char))
  | 0, _, _ => none
  | fuel + 1, start, acc =>
    if start < (t.length : Int) then
      let end0 := start + maxSz
      let e :=
        if end0 < (t.length : Int) then
          let searchStart := max (end0 - 200) start
          let sentenceEnd :=
            max (max (pyRfind t (str ". ") searchStart end0)
                     (pyRfind t (str "! ") searchStart end0))
                (pyRfind t (str "? ") searchStart end0)
          if sentenceEnd > start then sentenceEnd + 1 else end0
        else end0
      let chunk := pyStrip (pySlice t start e)
      let acc' := if chunk.isEmpty then acc else acc ++ [chunk]
      let start' := if e < (t.length : Int) then e - ov else (t.length : Int)
      splitGo t maxSz ov fuel start' acc'
    else
      some acc

/-- `TextProcessor.split_into_chunks(text, max_chunk_size, overlap)`.  The
short-input branch returns `[text]` before the loop; otherwise the cursor loop
runs on the given fuel. -/
def split_into_chunks (t : List Char) (maxSz ov : Int) (fuel : Nat) :
    Option (List (List Char)) :=
  if (t.length : Int) ≤ maxSz then some [t] else splitGo t maxSz ov fuel 0 []

/-- True on ASCII decimal digits, as `\d` in the timestamp pattern. -/
def isDigitCh (c : Char) : Bool := '0' ≤ c && c ≤ '9'

/-- Attempt of the core of the timestamp pattern
`\d{1,2}:\d{2}(?::\d{2})?` at the head of `l`: returns the consumed length
and the captured token.  Greedy with backtracking: two digits are preferred to
one, the `:\d{2}` extension is taken when it matches. -/
def matchCore (l : List Char) : Option (Nat × List Char) :=
  let ext : List Char → Nat × List Char := fun rest =>
    match rest with
    | c :: d1 :: d2 :: _ =>
      if c = ':' && isDigitCh d1 && isDigitCh d2 then (3, [c, d1, d2]) else (0, [])
    | _ => (0, [])
  match l with
  | a :: b :: c :: d1 :: d2 :: rest =>
    if isDigitCh a && isDigitCh b && c = ':' && isDigitCh d1 && isDigitCh d2 then
      let (k, ex) := ext rest
      some (5 + k, [a, b, c, d1, d2] ++ ex)
    else if isDigitCh a && b = ':' && isDigitCh c && isDigitCh d1 then
      let (k, ex) := ext (d2 :: rest)
      some (4 + k, [a, b, c, d1] ++ ex)
    else none
  | a :: b :: c :: d1 :: [] =>
    if isDigitCh a && b = ':' && isDigitCh c && isDigitCh d1 then
      some (4, [a, b, c, d1])
    else none
  | _ => none

/-- Attempt of the full pattern `[\[\(]?(\d{1,2}:\d{2}(?::\d{2})?)[\]\)]?` at
the head of `l`: consumed length and the captured group. -/
def matchAt (l : List Char) : Option (Nat × List Char) :=
  match l with
  | [] => none
  | c :: rest =>
    if c = '[' || c = '(' then
      match matchCore rest with
      | some (n, cap) =>
        let close : Nat :=
          match rest.drop n with
          | d :: _ => if d = ']' || d = ')' then 1 else 0
          | [] => 0
        some (1 + n + close, cap)
      | none => none
    else
      match matchCore (c :: rest) with
      | some (n, cap) =>
        let close : Nat :=
          match (c :: rest).drop n with
          | d :: _ => if d = ']' || d = ')' then 1 else 0
          | [] => 0
        some (n + close, cap)
      | none => none

/-- Left-to-right non-overlapping scan of `re.findall`, fuelled by the length
of the text (every step consumes at least one character). -/
def findAllGo : Nat → List Char → List (List Char)
  | 0, _ => []
  | _ + 1, [] => []
  | fuel + 1, c :: rest =>
    match matchAt (c :: rest) with
    | some (n, cap) => cap :: findAllGo fuel ((c :: rest).drop n)
    | none => findAllGo fuel rest

/-- `TextProcessor.extract_timestamps`: all captures of the timestamp pattern
in left-to-right order. -/
def extract_timestamps (t : List Char) : List (List Char) :=
  findAllGo t.length t

/-- The canonical chunk record built by `ChunkingAgent.chunk_transcript`. -/
structure ChunkRec where
  chunk_id : Nat
  text : List Char
  start_timestamp : List Char
  end_timestamp : List Char
  char_count : Nat
deriving DecidableEq, Repr

/-- `ChunkingAgent.chunk_transcript`: clean, split, then attach sequence ids
and the first/last extracted timestamps (sentinel `"00:00"` when none). -/
def chunk_transcript (maxSz ov : Int) (fuel : Nat) (transcript : List Char) :
    Option (List ChunkRec) :=
  let cleaned := clean_text transcript
  match split_into_chunks cleaned maxSz ov fuel with
  | none => none
  | some chunks =>
    some (chunks.enum.map (fun p =>
      let timestamps := extract_timestamps p.2
      { chunk_id := p.1 + 1
        text := p.2
        start_timestamp := timestamps.headD (str "00:00")
        end_timestamp := timestamps.getLastD (str "00:00")
        char_count := p.2.length }))

/-- The summary record produced by the map stage. -/
structure SummaryRec where
  chunk_id : Nat
  start_timestamp : List Char
  end_timestamp : List Char
  summary : List Char
  success : Bool
deriving DecidableEq, Repr

/-- A Generation Port: prompt, system prompt, temperature, max output tokens
to either a generated text or an error message. -/
def GenPort : Type :=
  List Char → List Char → Rat → Nat → Except (List Char) (List Char)

/-- System prompt of `SummarizationAgent`. -/
def summarizationSystemPrompt : List Char :=
  str "You are an expert at summarizing video content. \nYour task is to create a concise but comprehensive summary of the video transcript chunk provided.\n\nInstructions:\n- Extract the main topics and key points discussed\n- Maintain chronological order\n- Preserve important details and context\n- Use clear, professional language\n- If timestamps are present, note the time range covered"

/-- User prompt built by `SummarizationAgent.summarize_chunk` from a chunk. -/
def chunkUserPrompt (c : ChunkRec) : List Char :=
  str "Summarize this video transcript chunk:\n\nTime Range: " ++
    c.start_timestamp ++ str " - " ++ c.end_timestamp ++
    str "\n\nTranscript:\n" ++ c.text ++
    str "\n\nProvide a clear summary highlighting the main topics and key points."

/-- `SummarizationAgent.summarize_chunk`: one Generation Port call; on success
the trimmed model text with `success := true`, on any raised error an
`Error: <message>` summary with `success := false`; identity and time range
copied verbatim in both branches. -/
def summarize_chunk (gen : GenPort) (c : ChunkRec) : SummaryRec :=
  match gen (chunkUserPrompt c) summarizationSystemPrompt (3 / 10) 500 with
  | Except.ok s =>
    { chunk_id := c.chunk_id
      start_timestamp := c.start_timestamp
      end_timestamp := c.end_timestamp
      summary := pyStrip s
      success := true }
  | Except.error e =>
    { chunk_id := c.chunk_id
      start_timestamp := c.start_timestamp
      end_timestamp := c.end_timestamp
      summary := str "Error: " ++ e
      success := false }

/-- `SummarizationAgent.summarize_all_chunks`: sequential map over the chunk
list, appending one summary per chunk. -/
def summarize_all_chunks (gen : GenPort) (chunks : List ChunkRec) :
    List SummaryRec :=
  chunks.map (summarize_chunk gen)

/-- The caller-supplied video metadata dictionary, restricted to the keys the
synthesis stage reads (`url`, `duration`); `none` models an absent key. -/
structure MetaRec where
  url : Option (List Char)
  duration : Option (List Char)

/-- System prompt of `SynthesisAgent` (structure contract of the final
document). -/
def synthesisSystemPrompt : List Char :=
  str "You are an expert at creating comprehensive video summaries.\nYour task is to synthesize multiple chunk summaries into a well-structured, hierarchical summary.\n\nCreate a summary with the following structure:\n\n# Video Summary\n\n## Overview\n[2-3 paragraph narrative overview of the entire video]\n\n## Key Topics\n[Organize content into main topics with hierarchical structure]\n\n### Topic 1: [Topic Name] (HH:MM:SS - HH:MM:SS)\n- Key point 1\n- Key point 2\n- Key point 3\n\n[1-2 paragraph narrative explanation of this topic]\n\n### Topic 2: [Topic Name] (HH:MM:SS - HH:MM:SS)\n...\n\n## Key Takeaways\n- Main takeaway 1\n- Main takeaway 2\n- Main takeaway 3\n\nUse clear headings, bullet points, and narrative paragraphs for comprehensive coverage."

/-- Python `sep.join(parts)`. -/
def pyJoin (sep : List Char) : List (List Char) → List Char
  | [] => []
  | [x] => x
  | x :: y :: rest => x ++ sep ++ pyJoin sep (y :: rest)

/-- The `[start - end]\n<text>\n` block built for one successful chunk
summary in `SynthesisAgent.synthesize`. -/
def summaryBlock (s : SummaryRec) : List Char :=
  str "[" ++ s.start_timestamp ++ str " - " ++ s.end_timestamp ++ str "]\n" ++
    s.summary ++ str "\n"

/-- The joined successful-chunk-summary text of `SynthesisAgent.synthesize`. -/
def combinedSummaries (chunk_summaries : List SummaryRec) : List Char :=
  pyJoin (str "\n") ((chunk_summaries.filter (fun s => s.success)).map summaryBlock)

/-- User prompt built by `SynthesisAgent.synthesize`. -/
def synthesisUserPrompt (chunk_summaries : List SummaryRec) (m : MetaRec) :
    List Char :=
  str "Here are summaries of different parts of a YouTube video:\n\nVideo URL: " ++
    m.url.getD (str "N/A") ++ str "\nDuration: " ++ m.duration.getD (str "N/A") ++
    str " seconds\n\nChunk Summaries:\n" ++ combinedSummaries chunk_summaries ++
    str "\n\nCreate a comprehensive, hierarchical summary of this entire video following the structure specified in the system prompt. \nOrganize the content logically by topics, include timestamps, use both bullet points and narrative paragraphs."

/-- `SynthesisAgent.synthesize`: one Generation Port call over the joined
successful summaries; on success the trimmed document, on any raised error the
deterministic fallback document. -/
def synthesize (gen : GenPort) (chunk_summaries : List SummaryRec)
    (m : MetaRec) : List Char :=
  match gen (synthesisUserPrompt chunk_summaries m) synthesisSystemPrompt
      (4 / 10) 2000 with
  | Except.ok finalSummary => pyStrip finalSummary
  | Except.error e =>
    str "# Video Summary\n\n## Error\nFailed to synthesize final summary: " ++
      e ++ str "\n\n" ++ str "## Chunk Summaries\n\n" ++
      combinedSummaries chunk_summaries

/-! ### Helper lemmas about the map stage -/

theorem summarize_chunk_chunk_id (gen : GenPort) (c : ChunkRec) :
    (summarize_chunk gen c).chunk_id = c.chunk_id := by
  unfold summarize_chunk
  cases gen (chunkUserPrompt c) summarizationSystemPrompt (3 / 10) 500 <;> rfl

theorem summarize_chunk_start (gen : GenPort) (c : ChunkRec) :
    (summarize_chunk gen c).start_timestamp = c.start_timestamp := by
  unfold summarize_chunk
  cases gen (chunkUserPrompt c) summarizationSystemPrompt (3 / 10) 500 <;> rfl

theorem summarize_chunk_end (gen : GenPort) (c : ChunkRec) :
    (summarize_chunk gen c).end_timestamp = c.end_timestamp := by
  unfold summarize_chunk
  cases gen (chunkUserPrompt c) summarizationSystemPrompt (3 / 10) 500 <;> rfl

/-! ### Claim theorems -/

/-- C2: for any list of `n` chunks submitted to the map stage,
`summarize_all_chunks` returns exactly `n` summaries and the summary at every
index `i` carries the `chunk_id` of the input chunk at index `i`; no unit of
work is dropped. -/
theorem summarize_all_order_preservation (gen : GenPort) (chunks : List ChunkRec) :
    (summarize_all_chunks gen chunks).length = chunks.length ∧
    ∀ i : Nat, ((summarize_all_chunks gen chunks)[i]?).map SummaryRec.chunk_id
      = (chunks[i]?).map ChunkRec.chunk_id := by
  constructor
  · simp [summarize_all_chunks]
  · intro i
    rw [summarize_all_chunks, List.getElem?_map]
    cases h : chunks[i]? with
    | none => rfl
    | some c => simp [summarize_chunk_chunk_id]

/-- C4: `split_into_chunks` performs no validation of the
`overlap < max_chunk_size` precondition: called with `overlap = max_chunk_size
= 2` on the four-character text `"aaaa"`, it does not signal a configuration
error but loops forever without advancing the cursor (no fuel ever suffices). -/
theorem split_no_config_validation :
    ∀ fuel : Nat, split_into_chunks (str "aaaa") 2 2 fuel = none := by
  have go : ∀ (fuel : Nat) (acc : List (List Char)),
      splitGo (str "aaaa") 2 2 fuel 0 acc = none := by
    intro fuel
    induction fuel with
    | zero => intro acc; rfl
    | succ n ih =>
      intro acc
      have step : splitGo (str "aaaa") 2 2 (n + 1) 0 acc
          = splitGo (str "aaaa") 2 2 n 0 (acc ++ [str "aa"]) := rfl
      rw [step]
      exact ih (acc ++ [str "aa"])
  intro fuel
  exact go fuel []

/-- C5: the split cursor does not make forward progress on every iteration
even under a valid configuration (`overlap = 5 < 10 = max_chunk_size`): on
`"abcd. xxxxxxxxxx"` the sentence-snapped window end is `5`, the next start is
`5 - 5 = 0` again, and the loop never terminates (no fuel ever suffices). -/
theorem split_cursor_stall :
    ∀ fuel : Nat, split_into_chunks (str "abcd. xxxxxxxxxx") 10 5 fuel = none := by
  have go : ∀ (fuel : Nat) (acc : List (List Char)),
      splitGo (str "abcd. xxxxxxxxxx") 10 5 fuel 0 acc = none := by
    intro fuel
    induction fuel with
    | zero => intro acc; rfl
    | succ n ih =>
      intro acc
      have step : splitGo (str "abcd. xxxxxxxxxx") 10 5 (n + 1) 0 acc
          = splitGo (str "abcd. xxxxxxxxxx") 10 5 n 0 (acc ++ [str "abcd."]) := rfl
      rw [step]
      exact ih (acc ++ [str "abcd."])
  intro fuel
  exact go fuel []

/-- C6: on input text no longer than `max_chunk_size`, `split_into_chunks`
returns exactly the single-element list holding the whole text unchanged. -/
theorem split_short_input_passthrough (t : List Char) (maxSz ov : Int)
    (fuel : Nat) (h : (t.length : Int) ≤ maxSz) :
    split_into_chunks t maxSz ov fuel = some [t] := by
  unfold split_into_chunks
  simp [h]

/-- Witness for C6 at the concrete input `"hello"`, `max_chunk_size = 10`,
`overlap = 3`. -/
theorem split_short_input_passthrough_holds :
    ((str "hello").length : Int) ≤ 10 ∧
    split_into_chunks (str "hello") 10 3 0 = some [str "hello"] :=
  ⟨by decide, split_short_input_passthrough (str "hello") 10 3 0 (by decide)⟩

/-- C9: the summary returned by `summarize_chunk` carries the `chunk_id`,
`start_timestamp` and `end_timestamp` of the source chunk verbatim, whichever
branch (success or failure) is taken. -/
theorem summarize_chunk_copies_identity (gen : GenPort) (c : ChunkRec) :
    (summarize_chunk gen c).chunk_id = c.chunk_id ∧
    (summarize_chunk gen c).start_timestamp = c.start_timestamp ∧
    (summarize_chunk gen c).end_timestamp = c.end_timestamp :=
  ⟨summarize_chunk_chunk_id gen c, summarize_chunk_start gen c,
    summarize_chunk_end gen c⟩

/-- Membership in a joined list embeds each part as an infix of the result. -/
theorem mem_infix_pyJoin (sep : List Char) :
    ∀ (xs : List (List Char)) (x : List Char), x ∈ xs → x <:+: pyJoin sep xs
  | [], x, hx => by simp at hx
  | [y], x, hx => by
    rw [List.mem_singleton] at hx
    subst hx
    exact List.infix_rfl
  | y :: z :: rest, x, hx => by
    rw [pyJoin]
    rcases List.mem_cons.mp hx with h | h
    · subst h
      rw [List.append_assoc]
      exact (List.prefix_append x (sep ++ pyJoin sep (z :: rest))).isInfix
    · exact (mem_infix_pyJoin sep (z :: rest) x h).trans
        (List.suffix_append (y ++ sep) (pyJoin sep (z :: rest))).isInfix

/-- The summary text of a chunk summary is an infix of its formatted block. -/
theorem summary_infix_block (s : SummaryRec) : s.summary <:+: summaryBlock s :=
  List.infix_append
    (str "[" ++ s.start_timestamp ++ str " - " ++ s.end_timestamp ++ str "]\n")
    s.summary (str "\n")

/-- C1: when the Generation Port call of the reduce stage raises,
`synthesize` still returns (it does not propagate the failure): the result is
non-empty, starts with the `# Video Summary` heading, contains an error
section naming the failure message, and contains the `summary` text of every
successful input chunk summary verbatim. -/
theorem synthesize_fallback_completeness (gen : GenPort)
    (chunk_summaries : List SummaryRec) (m : MetaRec) (e : List Char)
    (h : gen (synthesisUserPrompt chunk_summaries m) synthesisSystemPrompt
      (4 / 10) 2000 = Except.error e) :
    synthesize gen chunk_summaries m ≠ [] ∧
    str "# Video Summary" <+: synthesize gen chunk_summaries m ∧
    (str "## Error\nFailed to synthesize final summary: " ++ e) <:+:
      synthesize gen chunk_summaries m ∧
    ∀ s ∈ chunk_summaries, s.success = true →
      s.summary <:+: synthesize gen chunk_summaries m := by
  unfold synthesize
  rw [h]
  have hsplit :
      str "# Video Summary\n\n## Error\nFailed to synthesize final summary: "
        = str "# Video Summary\n\n" ++
          str "## Error\nFailed to synthesize final summary: " := by decide
  refine ⟨?_, ?_, ?_, ?_⟩
  · exact List.cons_ne_nil _ _
  · rw [hsplit]
    have hsplit2 : str "# Video Summary\n\n"
        = str "# Video Summary" ++ str "\n\n" := by decide
    rw [hsplit2]
    simp only [List.append_assoc]
    exact List.prefix_append _ _
  · rw [hsplit]
    simp only [List.append_assoc]
    exact ((List.prefix_append _ _).isInfix.trans
      (List.suffix_append (str "# Video Summary\n\n") _).isInfix)
  · intro s hs hsucc
    have hblock : summaryBlock s ∈
        (chunk_summaries.filter (fun s => s.success)).map summaryBlock :=
      List.mem_map_of_mem summaryBlock (List.mem_filter.mpr ⟨hs, hsucc⟩)
    have h1 : s.summary <:+: combinedSummaries chunk_summaries :=
      (summary_infix_block s).trans
        (mem_infix_pyJoin (str "\n") _ _ hblock)
    exact h1.trans (List.suffix_append _ (combinedSummaries chunk_summaries)).isInfix

/-- Fixture: a successful chunk summary used in witnesses. -/
def okSummaryRec : SummaryRec :=
  { chunk_id := 1
    start_timestamp := str "00:10"
    end_timestamp := str "01:20"
    summary := str "The speaker introduces the topic."
    success := true }

/-- Fixture: a failed chunk summary used in witnesses. -/
def failedSummaryRec : SummaryRec :=
  { chunk_id := 2
    start_timestamp := str "01:20"
    end_timestamp := str "02:30"
    summary := str "Error: timeout"
    success := false }

/-- Fixture: a Generation Port that always raises. -/
def alwaysFailGen : GenPort := fun _ _ _ _ => Except.error (str "model down")

/-- Fixture: metadata with both keys present. -/
def someMeta : MetaRec := { url := some (str "https://example"), duration := some (str "300") }

/-- Witness for C1: with a port that always raises and one successful plus one
failed summary, the fallback is non-empty, carries the heading, the error
section and the successful summary text. -/
theorem synthesize_fallback_completeness_holds :
    alwaysFailGen (synthesisUserPrompt [okSummaryRec, failedSummaryRec] someMeta)
      synthesisSystemPrompt (4 / 10) 2000 = Except.error (str "model down") ∧
    synthesize alwaysFailGen [okSummaryRec, failedSummaryRec] someMeta ≠ [] ∧
    str "# Video Summary" <+:
      synthesize alwaysFailGen [okSummaryRec, failedSummaryRec] someMeta ∧
    okSummaryRec.summary <:+:
      synthesize alwaysFailGen [okSummaryRec, failedSummaryRec] someMeta := by
  have h := synthesize_fallback_completeness alwaysFailGen
    [okSummaryRec, failedSummaryRec] someMeta (str "model down") rfl
  exact ⟨rfl, h.1, h.2.1, h.2.2.2 okSummaryRec (by simp) rfl⟩

/-- The success flag recorded by the map stage equals success of the port
call. -/
theorem summarize_chunk_success_eq (gen : GenPort) (c : ChunkRec) :
    (summarize_chunk gen c).success
      = (gen (chunkUserPrompt c) summarizationSystemPrompt (3 / 10) 500).isOk := by
  unfold summarize_chunk Except.isOk
  cases gen (chunkUserPrompt c) summarizationSystemPrompt (3 / 10) 500 <;> rfl

/-- C3: a raised Generation Port error is converted into a failed summary
whose text is the error marker followed by the error message; and in a batch
whose port calls succeed except on one chunk, `summarize_all_chunks` returns
one summary per chunk with exactly one `success = false` and all the others
`success = true`. -/
theorem map_stage_failure_conversion (gen : GenPort) :
    (∀ (c : ChunkRec) (e : List Char),
      gen (chunkUserPrompt c) summarizationSystemPrompt (3 / 10) 500
        = Except.error e →
      (summarize_chunk gen c).success = false ∧
      (summarize_chunk gen c).summary = str "Error: " ++ e) ∧
    (∀ (pre : List ChunkRec) (bad : ChunkRec) (post : List ChunkRec)
      (e : List Char),
      (∀ c ∈ pre, (gen (chunkUserPrompt c) summarizationSystemPrompt
        (3 / 10) 500).isOk = true) →
      (∀ c ∈ post, (gen (chunkUserPrompt c) summarizationSystemPrompt
        (3 / 10) 500).isOk = true) →
      gen (chunkUserPrompt bad) summarizationSystemPrompt (3 / 10) 500
        = Except.error e →
      (summarize_all_chunks gen (pre ++ bad :: post)).length
          = pre.length + 1 + post.length ∧
      (summarize_all_chunks gen (pre ++ bad :: post)).countP
          (fun s => !s.success) = 1 ∧
      (summarize_all_chunks gen (pre ++ bad :: post)).countP
          (fun s => s.success) = pre.length + post.length) := by
  constructor
  · intro c e h
    unfold summarize_chunk
    rw [h]
    exact ⟨rfl, rfl⟩
  · intro pre bad post e hpre hpost hbad
    have hbadfail : (summarize_chunk gen bad).success = false := by
      rw [summarize_chunk_success_eq, hbad]
      rfl
    have hcount : ∀ (l : List ChunkRec),
        (∀ c ∈ l, (gen (chunkUserPrompt c) summarizationSystemPrompt
          (3 / 10) 500).isOk = true) →
        (l.map (summarize_chunk gen)).countP (fun s => !s.success) = 0 ∧
        (l.map (summarize_chunk gen)).countP (fun s => s.success) = l.length := by
      intro l hl
      rw [List.countP_map, List.countP_map]
      constructor
      · rw [List.countP_eq_zero]
        intro c hc
        simp only [Function.comp_apply, Bool.not_eq_true', Bool.not_eq_false]
        rw [summarize_chunk_success_eq]
        exact hl c hc
      · rw [List.countP_eq_length]
        intro c hc
        simp only [Function.comp_apply]
        rw [summarize_chunk_success_eq]
        exact hl c hc
    obtain ⟨hpre0, hpre1⟩ := hcount pre hpre
    obtain ⟨hpost0, hpost1⟩ := hcount post hpost
    refine ⟨by simp [summarize_all_chunks]; omega, ?_, ?_⟩
    · rw [summarize_all_chunks, List.map_append, List.map_cons,
        List.countP_append, List.countP_cons, hpre0, hpost0, hbadfail]
      rfl
    · rw [summarize_all_chunks, List.map_append, List.map_cons,
        List.countP_append, List.countP_cons, hpre1, hpost1, hbadfail]
      simp

/-- Fixture: three chunks used by the map-stage witnesses. -/
def chunkFixA : ChunkRec :=
  { chunk_id := 1, text := str "alpha", start_timestamp := str "00:10",
    end_timestamp := str "00:20", char_count := 5 }

/-- Fixture: the chunk whose port call is made to fail. -/
def chunkFixB : ChunkRec :=
  { chunk_id := 2, text := str "beta", start_timestamp := str "00:30",
    end_timestamp := str "00:40", char_count := 4 }

/-- Fixture: the third chunk of the witness batch. -/
def chunkFixC : ChunkRec :=
  { chunk_id := 3, text := str "gamma", start_timestamp := str "00:50",
    end_timestamp := str "01:00", char_count := 5 }

/-- Fixture: a Generation Port failing exactly on the prompt built from
`chunkFixB`. -/
def oneFailGen : GenPort := fun prompt _ _ _ =>
  if prompt = chunkUserPrompt chunkFixB then Except.error (str "boom")
  else Except.ok (str " fine ")

/-- Witness for C3: in the three-chunk batch where only the call for
`chunkFixB` fails, the failed summary is the marked error text and the counts
are one failure and two successes. -/
theorem map_stage_failure_conversion_holds :
    (summarize_chunk oneFailGen chunkFixB).success = false ∧
    (summarize_chunk oneFailGen chunkFixB).summary = str "Error: " ++ str "boom" ∧
    (summarize_all_chunks oneFailGen [chunkFixA, chunkFixB, chunkFixC]).countP
      (fun s => !s.success) = 1 ∧
    (summarize_all_chunks oneFailGen [chunkFixA, chunkFixB, chunkFixC]).countP
      (fun s => s.success) = 2 := by
  have h := map_stage_failure_conversion oneFailGen
  have h1 := h.1 chunkFixB (str "boom") rfl
  have h2 := h.2 [chunkFixA] chunkFixB [chunkFixC] (str "boom")
    (by decide) (by decide) rfl
  exact ⟨h1.1, h1.2, h2.2.1, h2.2.2⟩

/-- C8: the timestamp scan returns the matches of the pattern in
left-to-right order — on a chunk containing only `[01:20]` and `[03:45]` it
returns exactly those two tokens — and every chunk built by
`chunk_transcript` takes its `start_timestamp` from the first match on its
text and its `end_timestamp` from the last, with `"00:00"` as the default
when there is no match. -/
theorem timestamp_extraction_first_last :
    extract_timestamps (str "Intro [01:20] middle [03:45] end")
      = [str "01:20", str "03:45"] ∧
    ∀ (maxSz ov : Int) (fuel : Nat) (transcript : List Char)
      (cs : List ChunkRec),
      chunk_transcript maxSz ov fuel transcript = some cs →
      ∀ c ∈ cs,
        c.start_timestamp = (extract_timestamps c.text).headD (str "00:00") ∧
        c.end_timestamp = (extract_timestamps c.text).getLastD (str "00:00") := by
  constructor
  · decide
  · intro maxSz ov fuel transcript cs h c hc
    simp only [chunk_transcript] at h
    cases hs : split_into_chunks (clean_text transcript) maxSz ov fuel with
    | none => rw [hs] at h; exact absurd h (by simp)
    | some chunks =>
      rw [hs] at h
      simp only [Option.some.injEq] at h
      subst h
      obtain ⟨p, _, rfl⟩ := List.mem_map.mp hc
      exact ⟨rfl, rfl⟩

/-- Fixture: the chunk produced from the transcript containing exactly the
timestamps `[01:20]` and `[03:45]`. -/
def tsChunkFix : ChunkRec :=
  { chunk_id := 1
    text := str "Intro [01:20] middle [03:45] end"
    start_timestamp := str "01:20"
    end_timestamp := str "03:45"
    char_count := 32 }

/-- Witness for C8: instantiating the chunk-field clause at the concrete
transcript whose only timestamps are `[01:20]` and `[03:45]`. -/
theorem timestamp_extraction_first_last_holds :
    chunk_transcript 4000 200 1 (str "Intro [01:20] middle [03:45] end")
      = some [tsChunkFix] ∧
    tsChunkFix.start_timestamp
      = (extract_timestamps tsChunkFix.text).headD (str "00:00") ∧
    tsChunkFix.end_timestamp
      = (extract_timestamps tsChunkFix.text).getLastD (str "00:00") := by
  have h := (timestamp_extraction_first_last).2 4000 200 1
    (str "Intro [01:20] middle [03:45] end") [tsChunkFix] (by decide)
    tsChunkFix (by simp)
  exact ⟨by decide, h.1, h.2⟩

/-- Every list emitted by the split loop is non-empty: a window is appended
only after passing the non-emptiness test. -/
theorem splitGo_ne_nil (t : List Char) (mx ov : Int) :
    ∀ (fuel : Nat) (s : Int) (acc out : List (List Char)),
      splitGo t mx ov fuel s acc = some out →
      (∀ x ∈ acc, x ≠ []) → ∀ x ∈ out, x ≠ []
  | 0, s, acc, out, h, hacc => by simp [splitGo] at h
  | fuel + 1, s, acc, out, h, hacc => by
    rw [splitGo] at h
    by_cases hlt : s < (t.length : Int)
    · rw [if_pos hlt] at h
      dsimp only at h
      refine splitGo_ne_nil t mx ov fuel _ _ out h ?_
      intro x hx
      by_cases hempty :
          (pyStrip (pySlice t s (if s + mx < (t.length : Int) then
            (if (max (max (pyRfind t (str ". ") (max (s + mx - 200) s) (s + mx))
                (pyRfind t (str "! ") (max (s + mx - 200) s) (s + mx)))
              (pyRfind t (str "? ") (max (s + mx - 200) s) (s + mx))) > s then
              (max (max (pyRfind t (str ". ") (max (s + mx - 200) s) (s + mx))
                (pyRfind t (str "! ") (max (s + mx - 200) s) (s + mx)))
              (pyRfind t (str "? ") (max (s + mx - 200) s) (s + mx))) + 1
            else s + mx)
          else s + mx))).isEmpty
      · rw [if_pos hempty] at hx
        exact hacc x hx
      · rw [if_neg hempty] at hx
        rcases List.mem_append.mp hx with hmem | hmem
        · exact hacc x hmem
        · rw [List.mem_singleton] at hmem
          subst hmem
          intro hnil
          exact hempty (by rw [hnil]; rfl)
    · rw [if_neg hlt] at h
      simp only [Option.some.injEq] at h
      subst h
      exact hacc

/-- On non-empty input, every member of a completed split is non-empty. -/
theorem split_ne_nil (t : List Char) (mx ov : Int) (fuel : Nat)
    (cs : List (List Char)) (ht : t ≠ [])
    (h : split_into_chunks t mx ov fuel = some cs) : ∀ x ∈ cs, x ≠ [] := by
  unfold split_into_chunks at h
  by_cases hlen : (t.length : Int) ≤ mx
  · rw [if_pos hlen] at h
    simp only [Option.some.injEq] at h
    subst h
    intro x hx
    rw [List.mem_singleton] at hx
    subst hx
    exact ht
  · rw [if_neg hlen] at h
    exact splitGo_ne_nil t mx ov fuel 0 [] cs h (by simp)

/-- Fixture: the single chunk built from the empty transcript. -/
def emptyTranscriptChunk : ChunkRec :=
  { chunk_id := 1
    text := []
    start_timestamp := str "00:00"
    end_timestamp := str "00:00"
    char_count := 0 }

/-- Counterexample to C10: the empty transcript cleans to the empty string,
passes through the short-input branch of the splitter unchanged, and the
Chunk Builder emits exactly one chunk whose `text` is empty. -/
theorem chunk_text_nonempty_counterexample :
    chunk_transcript 4000 200 1 [] = some [emptyTranscriptChunk] ∧
    emptyTranscriptChunk.text = [] :=
  ⟨by decide, rfl⟩

/-- C10 amended: every chunk emitted by `chunk_transcript` has non-empty
`text` whenever the cleaned transcript is non-empty; a transcript cleaning to
the empty string instead yields a single chunk with empty text. -/
theorem chunk_text_nonempty_amended (maxSz ov : Int) (fuel : Nat)
    (transcript : List Char) (cs : List ChunkRec)
    (hne : clean_text transcript ≠ [])
    (h : chunk_transcript maxSz ov fuel transcript = some cs) :
    ∀ c ∈ cs, c.text ≠ [] := by
  simp only [chunk_transcript] at h
  cases hs : split_into_chunks (clean_text transcript) maxSz ov fuel with
  | none => rw [hs] at h; exact absurd h (by simp)
  | some chunks =>
    rw [hs] at h
    simp only [Option.some.injEq] at h
    subst h
    intro c hc
    obtain ⟨p, hp, rfl⟩ := List.mem_map.mp hc
    have hmem : p.2 ∈ chunks := by
      have := List.mem_enum_iff_getElem?.mp hp
      exact List.getElem?_mem this
    exact split_ne_nil (clean_text transcript) maxSz ov fuel chunks hne hs p.2 hmem

/-- Fixture: the chunk built from the transcript `"hello"`. -/
def helloChunk : ChunkRec :=
  { chunk_id := 1
    text := str "hello"
    start_timestamp := str "00:00"
    end_timestamp := str "00:00"
    char_count := 5 }

/-- Witness for the amended C10 at the transcript `"hello"`. -/
theorem chunk_text_nonempty_amended_holds :
    clean_text (str "hello") ≠ [] ∧
    chunk_transcript 4000 200 1 (str "hello") = some [helloChunk] ∧
    helloChunk.text ≠ [] := by
  refine ⟨by decide, by decide, ?_⟩
  exact chunk_text_nonempty_amended 4000 200 1 (str "hello") [helloChunk]
    (by decide) (by decide) helloChunk (by simp)

/-- No two adjacent characters are both whitespace. -/
def NoWsPair (a b : Char) : Prop :=
  ¬(isPySpace a = true ∧ isPySpace b = true)

/-- Every character of the collapse output is either a space or
non-whitespace. -/
theorem collapseGo_mem :
    ∀ (l : List Char) (b : Bool) (c : Char), c ∈ collapseGo b l →
      c = ' ' ∨ isPySpace c = false
  | [], _, c, hc => by simp [collapseGo] at hc
  | d :: rest, b, c, hc => by
    by_cases hd : isPySpace d
    · cases b with
      | false =>
        rw [collapseGo, if_pos hd, if_neg (by simp)] at hc
        rcases List.mem_cons.mp hc with h | h
        · exact Or.inl h
        · exact collapseGo_mem rest true c h
      | true =>
        rw [collapseGo, if_pos hd, if_pos rfl] at hc
        exact collapseGo_mem rest true c hc
    · rw [collapseGo, if_neg hd] at hc
      rcases List.mem_cons.mp hc with h | h
      · subst h
        exact Or.inr (by simpa using hd)
      · exact collapseGo_mem rest false c h

/-- In state `prevWs = true` the collapse output never starts with
whitespace. -/
theorem collapseGo_true_head :
    ∀ (l : List Char) (c : Char),
      (collapseGo true l).head? = some c → isPySpace c = false
  | [], c, h => by simp [collapseGo] at h
  | d :: rest, c, h => by
    by_cases hd : isPySpace d
    · rw [collapseGo, if_pos hd, if_pos rfl] at h
      exact collapseGo_true_head rest c h
    · rw [collapseGo, if_neg hd, List.head?_cons, Option.some.injEq] at h
      subst h
      simpa using hd

/-- The collapse output never contains two adjacent whitespace characters. -/
theorem collapseGo_chain :
    ∀ (l : List Char) (b : Bool), List.Chain' NoWsPair (collapseGo b l)
  | [], b => by simp [collapseGo]
  | d :: rest, b => by
    by_cases hd : isPySpace d
    · cases b with
      | false =>
        rw [collapseGo, if_pos hd, if_neg (by simp)]
        rw [List.chain'_cons']
        constructor
        · intro y hy
          rw [Option.mem_def] at hy
          intro hpair
          rw [collapseGo_true_head rest y hy] at hpair
          exact absurd hpair.2 (by simp)
        · exact collapseGo_chain rest true
      | true =>
        rw [collapseGo, if_pos hd, if_pos rfl]
        exact collapseGo_chain rest true
    · rw [collapseGo, if_neg hd]
      rw [List.chain'_cons']
      refine ⟨?_, collapseGo_chain rest false⟩
      intro y _ hpair
      exact hd hpair.1

/-- A list whose whitespace is single spaces separated by non-whitespace is a
fixed point of the collapse pass. -/
theorem collapseGo_eq_self :
    ∀ l : List Char,
      (∀ c ∈ l, isPySpace c = true → c = ' ') →
      List.Chain' NoWsPair l →
      collapseGo false l = l ∧
        ((∀ c : Char, l.head? = some c → isPySpace c = false) →
          collapseGo true l = l)
  | [], _, _ => ⟨rfl, fun _ => rfl⟩
  | d :: rest, hmem, hchain => by
    have hmem' : ∀ c ∈ rest, isPySpace c = true → c = ' ' :=
      fun c hc h => hmem c (List.mem_cons_of_mem d hc) h
    have hchain' : List.Chain' NoWsPair rest := (List.chain'_cons'.mp hchain).2
    by_cases hd : isPySpace d
    · have hd' : d = ' ' := hmem d (by simp) hd
      have hhead : ∀ c : Char, rest.head? = some c → isPySpace c = false := by
        intro c hc
        have hpair := (List.chain'_cons'.mp hchain).1 c
          (by rw [Option.mem_def]; exact hc)
        by_contra hcon
        exact hpair ⟨hd, by simpa using hcon⟩
      constructor
      · rw [collapseGo, if_pos hd, if_neg (by simp)]
        rw [(collapseGo_eq_self rest hmem' hchain').2 hhead, hd']
      · intro hheadl
        have := hheadl d rfl
        rw [hd] at this
        exact absurd this (by simp)
    · constructor
      · rw [collapseGo, if_neg hd,
          (collapseGo_eq_self rest hmem' hchain').1]
      · intro _
        rw [collapseGo, if_neg hd,
          (collapseGo_eq_self rest hmem' hchain').1]

/-- A newline-free list is a fixed point of the blank-line pass. -/
theorem sub2Go_no_newline :
    ∀ (fuel : Nat) (l : List Char),
      (∀ c ∈ l, c ≠ '\n') → sub2Go fuel l = l
  | 0, _, _ => rfl
  | _ + 1, [], _ => rfl
  | fuel + 1, d :: rest, h => by
    have hd : ¬(d = '\n') := h d (by simp)
    rw [sub2Go, if_neg hd,
      sub2Go_no_newline fuel rest (fun c hc => h c (List.mem_cons_of_mem d hc))]

/-- A newline-free list is a fixed point of `sub2`. -/
theorem sub2_no_newline (l : List Char) (h : ∀ c ∈ l, c ≠ '\n') :
    sub2 l = l :=
  sub2Go_no_newline l.length l h

/-- Stripping only removes characters. -/
theorem mem_of_mem_pyStrip {c : Char} {l : List Char} (h : c ∈ pyStrip l) :
    c ∈ l :=
  (List.dropWhile_suffix isPySpace).sublist.subset
    ((List.rdropWhile_prefix isPySpace _).sublist.subset h)

/-- Stripping preserves the no-adjacent-whitespace invariant. -/
theorem chain'_pyStrip {R : Char → Char → Prop} {l : List Char}
    (h : List.Chain' R l) : List.Chain' R (pyStrip l) :=
  List.Chain'.prefix
    (List.Chain'.suffix h (List.dropWhile_suffix isPySpace))
    (List.rdropWhile_prefix isPySpace _)

/-- After a leading strip, stripping the trailing end leaves no leading
whitespace to remove. -/
theorem dropWhile_rdropWhile_dropWhile (l : List Char) :
    List.dropWhile isPySpace
        (List.rdropWhile isPySpace (List.dropWhile isPySpace l))
      = List.rdropWhile isPySpace (List.dropWhile isPySpace l) := by
  rw [List.dropWhile_eq_self_iff]
  intro hl
  obtain ⟨tail, htail⟩ :=
    List.rdropWhile_prefix isPySpace (List.dropWhile isPySpace l)
  have hlenv : 0 < (List.dropWhile isPySpace l).length := by
    rw [← htail, List.length_append]
    omega
  have h0 : (List.rdropWhile isPySpace (List.dropWhile isPySpace l))[0]?
      = (List.dropWhile isPySpace l)[0]? := by
    conv_rhs => rw [← htail]
    rw [List.getElem?_append_left hl]
  have hsome :
      some ((List.rdropWhile isPySpace (List.dropWhile isPySpace l)).get ⟨0, hl⟩)
        = some ((List.dropWhile isPySpace l).get ⟨0, hlenv⟩) := by
    rw [List.get_eq_getElem, List.get_eq_getElem, ← List.getElem?_eq_getElem,
      ← List.getElem?_eq_getElem, h0]
  rw [Option.some.inj hsome]
  exact List.dropWhile_get_zero_not isPySpace l hlenv

/-- Python strip is idempotent. -/
theorem pyStrip_idem (l : List Char) : pyStrip (pyStrip l) = pyStrip l := by
  unfold pyStrip
  rw [dropWhile_rdropWhile_dropWhile, List.rdropWhile_idempotent]

/-- C7: the cleaning operation is idempotent — cleaning an already cleaned
string leaves it unchanged. -/
theorem clean_text_idempotent (t : List Char) :
    clean_text (clean_text t) = clean_text t := by
  have hmem_u : ∀ c ∈ collapseWs t, isPySpace c = true → c = ' ' := by
    intro c hc h
    rcases collapseGo_mem t false c hc with h1 | h1
    · exact h1
    · rw [h] at h1; exact absurd h1 (by simp)
  have hnl_u : ∀ c ∈ collapseWs t, c ≠ '\n' := by
    intro c hc hcon
    subst hcon
    rcases collapseGo_mem t false '\n' hc with h1 | h1
    · exact absurd h1 (by decide)
    · exact absurd h1 (by decide)
  have h1 : sub2 (collapseWs t) = collapseWs t := sub2_no_newline _ hnl_u
  have hy : clean_text t = pyStrip (collapseWs t) := by
    rw [clean_text, h1]
  have hmem_y : ∀ c ∈ pyStrip (collapseWs t), isPySpace c = true → c = ' ' :=
    fun c hc h => hmem_u c (mem_of_mem_pyStrip hc) h
  have hchain_y : List.Chain' NoWsPair (pyStrip (collapseWs t)) :=
    chain'_pyStrip (collapseGo_chain t false)
  have h2 : collapseWs (pyStrip (collapseWs t)) = pyStrip (collapseWs t) :=
    (collapseGo_eq_self _ hmem_y hchain_y).1
  have hnl_y : ∀ c ∈ pyStrip (collapseWs t), c ≠ '\n' :=
    fun c hc => hnl_u c (mem_of_mem_pyStrip hc)
  have h3 : sub2 (pyStrip (collapseWs t)) = pyStrip (collapseWs t) :=
    sub2_no_newline _ hnl_y
  calc clean_text (clean_text t)
      = pyStrip (sub2 (collapseWs (pyStrip (collapseWs t)))) := by rw [hy]; rfl
    _ = pyStrip (pyStrip (collapseWs t)) := by rw [h2, h3]
    _ = pyStrip (collapseWs t) := pyStrip_idem _
    _ = clean_text t := hy.symm

end YtSummary
